import Mathlib

/-!
Verification of the Feishu channel adapter (clawdbot-feishu-channels).

Shallow embedding of the policy engine (`src/extensions/feishu/src/policy.ts`),
the message handler and connection supervisor (`src/unnamed/part_001`, which is
the long-connection monitor), against the natural-language specification.

Strings are modelled as `List Char` (`JStr`), JavaScript string operations
(`trim`, `toLowerCase`, prefix-stripping regex replaces, `parseInt`) are
modelled explicitly on that type, restricted to the ASCII behaviour the
adapter relies on.
-/

/-- JavaScript strings, modelled as lists of characters. -/
abbrev JStr := List Char

/-- Whitespace recognised by JavaScript `trim` / `parseInt` (ASCII fragment:
space, tab, line feed, carriage return, vertical tab, form feed). -/
def jsWs (c : Char) : Bool :=
  decide (c.toNat = 32 ∨ c.toNat = 9 ∨ c.toNat = 10 ∨ c.toNat = 13
    ∨ c.toNat = 11 ∨ c.toNat = 12)

/-- JavaScript `String.prototype.trim`: drop whitespace from both ends. -/
def jsTrim (s : JStr) : JStr :=
  ((s.dropWhile jsWs).reverse.dropWhile jsWs).reverse

/-- Lower-casing of a single character (ASCII fragment of `toLowerCase`:
`A`-`Z`, code points 65-90, map to code points 97-122). -/
def jsLowerChar (c : Char) : Char :=
  if 65 ≤ c.toNat ∧ c.toNat ≤ 90 then Char.ofNat (c.toNat + 32) else c

/-- JavaScript `String.prototype.toLowerCase` (ASCII fragment). -/
def jsToLower (s : JStr) : JStr := s.map jsLowerChar

/-- Case-insensitive test that `s` starts with the (lower-case) pattern `p`,
modelling an anchored case-insensitive regex match. -/
def startsWithCI (p : JStr) (s : JStr) : Bool :=
  decide (jsToLower (s.take p.length) = p)

/-- Source `.replace(/^(feishu|lark):/i, "")` from `normalizeFeishuAllowEntry`
(policy.ts): strip one leading platform tag, case-insensitively. -/
def stripPlatformTag (s : JStr) : JStr :=
  if startsWithCI ("feishu:".toList) s then s.drop 7
  else if startsWithCI ("lark:".toList) s then s.drop 5
  else s

/-- Source `.replace(/^(user|open|chat):/i, "")` from `normalizeFeishuAllowEntry`
(policy.ts): strip one leading kind tag, case-insensitively. -/
def stripKindTag (s : JStr) : JStr :=
  if startsWithCI ("user:".toList) s then s.drop 5
  else if startsWithCI ("open:".toList) s then s.drop 5
  else if startsWithCI ("chat:".toList) s then s.drop 5
  else s

/-- Source `normalizeFeishuAllowEntry` (policy.ts lines 12-18): trim, lower-case,
strip one platform tag, then strip one kind tag. -/
def normalizeFeishuAllowEntry (raw : JStr) : JStr :=
  stripKindTag (stripPlatformTag (jsToLower (jsTrim raw)))

/-- Source `normalizeFeishuAllowlist` (policy.ts lines 20-22): normalize every
entry and drop the entries that became empty (`.filter(Boolean)`). -/
def normalizeFeishuAllowlist (values : Option (List JStr)) : List JStr :=
  ((values.getD []).map normalizeFeishuAllowEntry).filter (fun e => e ≠ [])

-- Sanity examples (source test file: part_000, "normalizes allowlist entries").
example :
    normalizeFeishuAllowlist (some ["Feishu:User:OU_ABC".toList, " lark:oc_123 ".toList])
      = ["ou_abc".toList, "oc_123".toList] := by decide

example : normalizeFeishuAllowEntry ("chat:chat:a".toList) = "chat:a".toList := by decide
example : normalizeFeishuAllowEntry ("chat:a".toList) = "a".toList := by decide

/-! ## Allowlist matching (policy.ts) -/

/-- Where an allowlist match came from (`AllowlistMatch` in the plugin SDK). -/
inductive MatchSource
  | wildcard
  | id
  | name
  deriving DecidableEq, Repr

/-- Result of one allowlist check. -/
structure AllowlistMatch where
  allowed : Bool
  matchSource : Option MatchSource := none
  deriving DecidableEq, Repr

/-- Source `resolveFeishuAllowlistMatch` (policy.ts lines 24-55): normalize the
allow-list; empty list denies; `*` admits anyone; then try the sender id and
user id candidates, then the display name. -/
def resolveFeishuAllowlistMatch (allowFrom : Option (List JStr))
    (senderId : JStr) (senderUserId : Option JStr) (senderName : Option JStr) :
    AllowlistMatch :=
  let a := normalizeFeishuAllowlist allowFrom
  if a = [] then { allowed := false }
  else if "*".toList ∈ a then { allowed := true, matchSource := some .wildcard }
  else
    let candidates :=
      ([senderId, senderUserId.getD []].map normalizeFeishuAllowEntry).filter
        (fun c => c ≠ [])
    match candidates.find? (fun c => a.contains c) with
    | some _ => { allowed := true, matchSource := some .id }
    | none =>
      let sn : JStr :=
        match senderName with
        | some n => if n = [] then [] else normalizeFeishuAllowEntry n
        | none => []
      if sn ≠ [] && a.contains sn then { allowed := true, matchSource := some .name }
      else { allowed := false }

-- Sanity examples (source test file: part_000, "matches allowlist ...").
example :
    (resolveFeishuAllowlistMatch (some ["ou_abc".toList]) ("ou_abc".toList) none none).allowed
      = true := by decide
example :
    (resolveFeishuAllowlistMatch (some ["ou_abc".toList]) ("ou_other".toList)
      (some ("ou_abc".toList)) none).allowed = true := by decide
example :
    (resolveFeishuAllowlistMatch (some ["*".toList]) ("ou_any".toList) none none).allowed
      = true := by decide

/-! ## Group admission (policy.ts) -/

/-- DM policy values (`DmPolicySchema`). -/
inductive DmPolicy
  | dmDisabled
  | dmPairing
  | dmOpen
  deriving DecidableEq, Repr

/-- Group policy values (`GroupPolicySchema`). -/
inductive GroupPolicy
  | gpDisabled
  | gpAllowlist
  | gpOpen
  deriving DecidableEq, Repr

/-- Modelled from the spec: `resolveNestedAllowlistDecision` is imported from
`clawdbot/plugin-sdk`, whose source is not in this repository.  The spec
describes the nested admission logic (§4.2 step 4 and the §8 testable
property): a configured inner (room-level) list takes precedence — the sender
is admitted iff it matches inner, regardless of outer; otherwise a configured
outer list decides; with nothing configured the decision defaults to allow
(callers such as `resolveFeishuGroupAllow` deny the nothing-configured case
themselves before calling). -/
def resolveNestedAllowlistDecision (outerConfigured outerMatched innerConfigured innerMatched : Bool) :
    Bool :=
  if innerConfigured then innerMatched
  else if outerConfigured then outerMatched
  else true

/-- Parameters of `resolveFeishuGroupAllow` (policy.ts lines 134-141). -/
structure GroupAllowParams where
  groupPolicy : GroupPolicy
  outerAllowFrom : Option (List JStr)
  innerAllowFrom : Option (List JStr)
  senderId : JStr
  senderUserId : Option JStr
  senderName : Option JStr
  deriving DecidableEq, Repr

/-- Result of `resolveFeishuGroupAllow`. -/
structure GroupAllowResult where
  allowed : Bool
  outerMatch : AllowlistMatch
  innerMatch : AllowlistMatch
  deriving DecidableEq, Repr

/-- Source `resolveFeishuGroupAllow` (policy.ts lines 134-175): `disabled` denies
everyone, `open` admits everyone; under `allowlist`, deny when neither list is
configured, otherwise combine the outer and inner allowlist matches through
the nested decision. -/
def resolveFeishuGroupAllow (p : GroupAllowParams) : GroupAllowResult :=
  match p.groupPolicy with
  | .gpDisabled =>
    { allowed := false, outerMatch := { allowed := false }, innerMatch := { allowed := false } }
  | .gpOpen =>
    { allowed := true, outerMatch := { allowed := true }, innerMatch := { allowed := true } }
  | .gpAllowlist =>
    let outerAllow := normalizeFeishuAllowlist p.outerAllowFrom
    let innerAllow := normalizeFeishuAllowlist p.innerAllowFrom
    if outerAllow = [] && innerAllow = [] then
      { allowed := false, outerMatch := { allowed := false }, innerMatch := { allowed := false } }
    else
      let outerMatch :=
        resolveFeishuAllowlistMatch p.outerAllowFrom p.senderId p.senderUserId p.senderName
      let innerMatch :=
        resolveFeishuAllowlistMatch p.innerAllowFrom p.senderId p.senderUserId p.senderName
      let allowed :=
        resolveNestedAllowlistDecision
          (!outerAllow.isEmpty || !innerAllow.isEmpty)
          (if !outerAllow.isEmpty then outerMatch.allowed else true)
          (!innerAllow.isEmpty)
          innerMatch.allowed
      { allowed := allowed, outerMatch := outerMatch, innerMatch := innerMatch }

-- Sanity examples (source test file: part_000, "applies nested group allowlists").
example :
    (resolveFeishuGroupAllow
      { groupPolicy := .gpAllowlist,
        outerAllowFrom := some ["ou_abc".toList],
        innerAllowFrom := some ["ou_abc".toList],
        senderId := "ou_abc".toList,
        senderUserId := none, senderName := none }).allowed = true := by decide
example :
    (resolveFeishuGroupAllow
      { groupPolicy := .gpAllowlist,
        outerAllowFrom := some ["ou_abc".toList],
        innerAllowFrom := some ["ou_abc".toList],
        senderId := "ou_other".toList,
        senderUserId := none, senderName := none }).allowed = false := by decide

/-! ## Chat (room) entry matching (policy.ts) -/

/-- Per-room configuration (`FeishuChatConfig`, the fields the admission
pipeline reads). -/
structure ChatConfig where
  requireMention : Option Bool := none
  enabled : Option Bool := none
  allowFrom : Option (List JStr) := none
  deriving DecidableEq, Repr

/-- Result of `resolveFeishuChatMatch` (policy.ts lines 57-64), restricted to
the fields the handler reads. -/
structure FeishuChatMatch where
  chatConfig : Option ChatConfig
  wildcardConfig : Option ChatConfig
  allowed : Bool
  allowlistConfigured : Bool
  deriving DecidableEq, Repr

/-- Modelled from the spec: `resolveFeishuChatMatch` (policy.ts lines 66-102)
delegates key matching to `buildChannelKeyCandidates` /
`resolveChannelEntryMatchWithFallback` from `clawdbot/plugin-sdk`, whose
source is not in this repository.  Per §3 (RoomPolicy): entries are looked up
by an ordered candidate list (id → normalized name → wildcard `*`), first
match wins, and the wildcard entry is a fallback used only when no
room-specific entry exists.  The handler calls this with no chat name, so the
candidate list is just the chat id.  The admission bit is the source's
`resolveNestedAllowlistDecision` call with `innerConfigured = false`. -/
def resolveFeishuChatMatch (chats : Option (List (JStr × ChatConfig))) (chatId : JStr) :
    FeishuChatMatch :=
  let cs := chats.getD []
  let configured := !cs.isEmpty
  let direct := (cs.find? (fun e => e.1 = chatId)).map (fun e => e.2)
  let wildcard := (cs.find? (fun e => e.1 = "*".toList)).map (fun e => e.2)
  let entry := match direct with | some c => some c | none => wildcard
  { chatConfig := entry,
    wildcardConfig := wildcard,
    allowed := resolveNestedAllowlistDecision configured entry.isSome false false,
    allowlistConfigured := configured }

-- Sanity examples (source test file: part_000, "resolves chat allowlist matches").
example :
    (resolveFeishuChatMatch
      (some [("oc_allowed".toList, { requireMention := some false }),
             ("*".toList, { requireMention := some true })]) ("oc_allowed".toList)).allowed
      = true := by decide
example :
    (resolveFeishuChatMatch
      (some [("oc_allowed".toList, { requireMention := some false }),
             ("*".toList, { requireMention := some true })]) ("oc_other".toList)).allowed
      = true := by decide
example :
    (resolveFeishuChatMatch (some [("oc_allowed".toList, {})]) ("oc_other".toList)).allowed
      = false := by decide
example : (resolveFeishuChatMatch none ("oc_x".toList)).allowed = true := by decide

/-! ## Timestamp parsing (part_001 / monitor.ts) -/

/-- Value of a run of decimal digits. -/
def digitsToNat (ds : List Char) : Nat :=
  ds.foldl (fun a c => a * 10 + (c.toNat - 48)) 0

/-- JavaScript `Number.parseInt(raw, 10)`: skip leading whitespace, accept an
optional sign, read the leading run of decimal digits (ignoring anything
after it), `NaN` (here `none`) if there is no digit. -/
def jsParseInt (s : JStr) : Option Int :=
  let t := s.dropWhile jsWs
  let core : JStr → Option Int := fun u =>
    let d := u.takeWhile Char.isDigit
    if d = [] then none else some (digitsToNat d : Int)
  match t with
  | '-' :: rest => (core rest).map (fun n => -n)
  | '+' :: rest => core rest
  | _ => core t

/-- Source `parseTimestamp` (part_001 lines 107-113): `undefined`/empty raw or an
unparseable number give nothing; a parsed value below `1e11` is seconds and
is scaled to milliseconds; otherwise it is already milliseconds. -/
def parseTimestamp (raw : Option JStr) : Option Int :=
  match raw with
  | none => none
  | some s =>
    if s = [] then none
    else
      match jsParseInt s with
      | none => none
      | some n => some (if n < 100000000000 then n * 1000 else n)

/-- The timestamp derivation at part_001 lines 483-484: message create-time,
falling back to the event header's create-time, falling back to the local
receipt time `now`. -/
def deriveInboundTimestamp (msgCreateTime hdrCreateTime : Option JStr) (now : Int) : Int :=
  match parseTimestamp msgCreateTime with
  | some v => v
  | none =>
    match parseTimestamp hdrCreateTime with
    | some v => v
    | none => now

example : parseTimestamp (some ("1700000000".toList)) = some 1700000000000 := by decide
example : parseTimestamp (some ("1700000000123".toList)) = some 1700000000123 := by decide
example : parseTimestamp (some ("abc".toList)) = none := by decide

/-! ## Connection supervisor: backoff and watchdog (part_001) -/

/-- Source `WS_RECONNECT_POLICY` shape (part_001 lines 42-47).  Numbers are modelled
as exact rationals. -/
structure ReconnectPolicy where
  initialMs : ℚ
  maxMs : ℚ
  factor : ℚ
  jitter : ℚ
  deriving DecidableEq, Repr

/-- The configured reconnect policy (part_001 lines 42-47):
`initialMs=2000, maxMs=30000, factor=1.8, jitter=0.25`. -/
def WS_RECONNECT_POLICY : ReconnectPolicy :=
  { initialMs := 2000, maxMs := 30000, factor := 9 / 5, jitter := 1 / 4 }

/-- Source `computeBackoff` (part_001 lines 89-93).  `rand` is the value drawn from
`Math.random()` (in `[0,1)`); `Math.round` is floor of `x + 1/2`, which is
Mathlib's `round`. -/
def computeBackoff (policy : ReconnectPolicy) (attempt : Nat) (rand : ℚ) : ℚ :=
  min policy.maxMs
    ((round (policy.initialMs * policy.factor ^ (attempt - 1)
      + policy.initialMs * policy.factor ^ (attempt - 1) * policy.jitter * rand) : ℤ) : ℚ)

/-- Source `resolveWsIdleTimeoutSeconds` (part_001 lines 251-255): a configured
non-negative number wins, otherwise the default of 20 minutes. -/
def resolveWsIdleTimeoutSeconds (configured : Option Int) : Int :=
  match configured with
  | some v => if v ≥ 0 then v else 1200
  | none => 1200

/-- Source `resolveWsWatchdogIntervalSeconds` (part_001 lines 257-265): a configured
positive number wins; otherwise 0 (disabled) when the idle timeout is not
positive, else the idle timeout divided by three clamped into `[15, 60]`. -/
def resolveWsWatchdogIntervalSeconds (configured : Option Int) (idleSeconds : Int) : Int :=
  let fallback := if idleSeconds ≤ 0 then 0 else max 15 (min 60 (idleSeconds / 3))
  match configured with
  | some v => if v > 0 then v else fallback
  | none => fallback

/-- Source `ensureWatchdog`'s arming condition (part_001 lines 1019-1021): with no
timer yet, the watchdog is armed only when both the idle timeout and the
watchdog interval are positive. -/
def ensureWatchdogArmed (hasTimer : Bool) (idleTimeoutSeconds watchdogIntervalSeconds : Int) :
    Bool :=
  if hasTimer then true
  else if idleTimeoutSeconds ≤ 0 || watchdogIntervalSeconds ≤ 0 then false
  else true

/-- One watchdog tick body (part_001 lines 1022-1030): a live (not stopped,
not aborted) tick requests a restart exactly when
`now - lastInboundAt ≥ idleTimeoutSeconds * 1000`. -/
def watchdogTick (stopped aborted : Bool) (now lastInboundAt idleTimeoutSeconds : Int) : Bool :=
  if stopped || aborted then false
  else if now - lastInboundAt < idleTimeoutSeconds * 1000 then false
  else true

/-- Whether an (initially unarmed) watchdog can fire a restart at all:
it must be armed and its tick body must request the restart. -/
def watchdogFires (idleTimeoutSeconds watchdogIntervalSeconds : Int)
    (stopped aborted : Bool) (now lastInboundAt : Int) : Bool :=
  ensureWatchdogArmed false idleTimeoutSeconds watchdogIntervalSeconds
    && watchdogTick stopped aborted now lastInboundAt idleTimeoutSeconds

/-! ## Connection supervisor: restart coalescing (part_001 lines 956-1017)

The restart machinery is a handful of mutable booleans manipulated by
synchronous (single-threaded JavaScript) critical sections.  It is modelled
as a state machine: `requestRestart` is the synchronous body of the function
of the same name; `finishRestart` is the tail of the in-flight restart task
(the `started`-failed flag assignment plus the `finally` block that clears
`restartInFlight`, re-checks `restartQueued` and loops).  `inFlight` counts
the restart tasks currently running so that "at most one in flight" is a
real property rather than a tautology of the model. -/

structure SupState where
  stopped : Bool
  aborted : Bool
  queued : Bool
  inFlight : Nat
  deriving DecidableEq, Repr

/-- Source `requestRestart` (part_001 lines 956-961 plus spawning the restart task):
no-op when stopped/aborted; only sets the queued flag when a restart is
already in flight; otherwise spawns a new in-flight restart. -/
def requestRestart (s : SupState) : SupState :=
  if s.stopped || s.aborted then s
  else if s.inFlight > 0 then { s with queued := true }
  else { s with inFlight := s.inFlight + 1 }

/-- Completion of an in-flight restart (part_001 lines 996-1016):
`startFailed` models reaching `restartQueued = true` after a failed
`startWsClient`; the `finally` block clears the in-flight marker and, when
the queued flag is set, clears it and calls `requestRestart("retry")`. -/
def finishRestart (startFailed : Bool) (s : SupState) : SupState :=
  let q := s.queued || startFailed
  let s1 : SupState := { s with inFlight := s.inFlight - 1, queued := false }
  if q then requestRestart s1 else s1

/-- Atomic transitions of the supervisor's restart state: a restart request
(from the idle watchdog, a transport error, or a retry), completion of an
in-flight restart, and the stop/abort signals. -/
inductive SupStep : SupState → SupState → Prop
  | request (s : SupState) : SupStep s (requestRestart s)
  | finish (s : SupState) (startFailed : Bool) (h : s.inFlight > 0) :
      SupStep s (finishRestart startFailed s)
  | stop (s : SupState) : SupStep s { s with stopped := true }
  | abort (s : SupState) : SupStep s { s with aborted := true }

/-- Initial supervisor state (part_001 lines 877-883). -/
def supInit : SupState := { stopped := false, aborted := false, queued := false, inFlight := 0 }

/-- States the supervisor can reach from startup. -/
def SupReachable (s : SupState) : Prop :=
  Relation.ReflTransGen SupStep supInit s

lemma supStep_inFlight_le {s t : SupState} (h : SupStep s t) (hs : s.inFlight ≤ 1) :
    t.inFlight ≤ 1 := by
  cases h with
  | request =>
    unfold requestRestart
    split
    · exact hs
    · split
      · exact hs
      · simp_all
  | finish startFailed hpos =>
    unfold finishRestart requestRestart
    dsimp only
    split
    · split
      · exact Nat.le_trans (Nat.sub_le _ _) hs
      · split
        · exact Nat.le_trans (Nat.sub_le _ _) hs
        · simp only []
          omega
    · exact Nat.le_trans (Nat.sub_le _ _) hs
  | stop => exact hs
  | abort => exact hs

lemma supReachable_inFlight_le_one {s : SupState} (h : SupReachable s) : s.inFlight ≤ 1 := by
  induction h with
  | refl => decide
  | tail _ step ih => exact supStep_inFlight_le step ih

/-! ## The message handler (`handleFeishuMessage`, part_001 lines 446-844)

The handler's admission pipeline is embedded as a pure function from an
input record to an outcome plus its observable side effects.  Fields that the
handler obtains from external collaborators are inputs:

* `parsedText` stands for `parseMessageContent(message)?.text` (JSON parsing
  of the platform content envelope is outside the admission logic);
* `storeAllowFrom` is the result of `core.channel.pairing.readAllowFromStore`
  (`[]` when the read failed, per the `.catch(() => [])`);
* `pairingStore` is the set of sender ids that already have a pairing
  request; `upsertPairingRequest` is modelled from the spec (§3, §6): it is
  idempotent per sender and reports `created` only for a new sender;
* `commandShouldBlock` is `resolveControlCommandGate(...).shouldBlock` and
  `mentionShouldSkip` is `resolveFeishuMentionGate(...).shouldSkip`, both
  computed by `clawdbot/plugin-sdk` code that is not part of this repository;
  the pipeline only consumes the booleans, so they are oracle inputs. -/

/-- The message fields the admission pipeline reads (`FeishuMessage` plus the
flattened variants the handler probes). -/
structure FeishuMsg where
  chat_id : Option JStr := none
  chatIdFlat : Option JStr := none
  chat_type : Option JStr := none
  chatTypeFlat : Option JStr := none
  create_time : Option JStr := none
  deriving DecidableEq, Repr

/-- Input of one `handleFeishuMessage` invocation. -/
structure HandlerInput where
  message : Option FeishuMsg := none
  senderTypeField : Option JStr := none
  senderOpenId : Option JStr := none
  senderUserId : Option JStr := none
  headerCreateTime : Option JStr := none
  now : Int := 0
  parsedText : Option JStr := none
  botOpenId : Option JStr := none
  dmPolicy : Option DmPolicy := none
  groupPolicy : Option GroupPolicy := none
  defaultGroupPolicy : Option GroupPolicy := none
  allowFrom : Option (List JStr) := none
  groupAllowFrom : Option (List JStr) := none
  chats : Option (List (JStr × ChatConfig)) := none
  storeAllowFrom : List JStr := []
  pairingStore : List JStr := []
  commandShouldBlock : Bool := false
  mentionShouldSkip : Bool := false
  deriving DecidableEq, Repr

/-- Why (or that) the handler finished. -/
inductive Outcome
  | droppedNoMessage
  | droppedAppSender
  | droppedNoSender
  | droppedSelf
  | droppedNoChatId
  | droppedNoContent
  | droppedChatNotAllowed
  | droppedChatDisabled
  | droppedCommandUnauthorized
  | droppedGroupPolicy
  | droppedDmDisabled
  | droppedDmPairing
  | droppedNoMention
  | delivered
  deriving DecidableEq, Repr

/-- Observable effects of one handler invocation. -/
structure HandlerResult where
  outcome : Outcome
  recordedInbound : Bool
  inboundTimestamp : Option Int
  pairingUpserted : Bool
  pairingReplySent : Bool
  pairingStoreAfter : List JStr
  deriving DecidableEq, Repr

/-- A drop before the liveness bookkeeping of part_001 lines 486-492: no
timestamp is recorded and no side effect happens. -/
def silentDrop (inp : HandlerInput) (o : Outcome) : HandlerResult :=
  { outcome := o, recordedInbound := false, inboundTimestamp := none,
    pairingUpserted := false, pairingReplySent := false,
    pairingStoreAfter := inp.pairingStore }

/-- A drop after the liveness bookkeeping but with no pairing side effect. -/
def recordedDrop (inp : HandlerInput) (ts : Int) (o : Outcome) : HandlerResult :=
  { outcome := o, recordedInbound := true, inboundTimestamp := some ts,
    pairingUpserted := false, pairingReplySent := false,
    pairingStoreAfter := inp.pairingStore }

/-- The normalized `sender_type` check of part_001 lines 463-465. -/
def isAppSender (inp : HandlerInput) : Bool :=
  (inp.senderTypeField.map (fun s => jsToLower (jsTrim s))) = some ("app".toList)

/-- The trimmed, non-empty open id of `resolveSenderIds`
(part_001 lines 146-165). -/
def openIdOf (inp : HandlerInput) : Option JStr :=
  match inp.senderOpenId with
  | some s => let t := jsTrim s; if t = [] then none else some t
  | none => none

/-- The trimmed, non-empty user id of `resolveSenderIds`. -/
def userIdOf (inp : HandlerInput) : Option JStr :=
  match inp.senderUserId with
  | some s => let t := jsTrim s; if t = [] then none else some t
  | none => none

/-- Source `resolveSenderIds(...)` sender id: open id `||` user id. -/
def resolveSenderIdOf (inp : HandlerInput) : Option JStr :=
  match openIdOf inp with
  | some o => some o
  | none => userIdOf inp

/-- The self-message check of part_001 line 469:
`account.botOpenId && senderIds.senderOpenId === account.botOpenId`. -/
def isSelfSender (inp : HandlerInput) : Bool :=
  match inp.botOpenId with
  | some b => b ≠ [] && openIdOf inp = some b
  | none => false

/-- The chat id resolution of part_001 lines 475-476:
`message.chat_id?.trim() ?? message.chatId`, then dropped when falsy. -/
def effChatId (m : FeishuMsg) : Option JStr :=
  let raw := match m.chat_id with
    | some s => some (jsTrim s)
    | none => m.chatIdFlat
  match raw with
  | some c => if c = [] then none else some c
  | none => none

/-- The trimmed non-empty body of part_001 lines 478-481 (`content.text`
coming from `parseMessageContent`). -/
def effBody (inp : HandlerInput) : Option JStr :=
  match inp.parsedText with
  | some t =>
    if t = [] then none
    else
      let b := jsTrim t
      if b = [] then none else some b
  | none => none

/-- The group/DM discrimination of part_001 lines 494-495: a chat is a group
unless its lower-cased chat type is exactly `p2p`. -/
def isGroupOf (m : FeishuMsg) : Bool :=
  let ct := match m.chat_type with
    | some s => some (jsToLower (jsTrim s))
    | none => m.chatTypeFlat.map jsToLower
  ct ≠ some ("p2p".toList)

/-- Effective DM policy (part_001 line 497): `account.config.dmPolicy ?? "pairing"`. -/
def effDmPolicy (inp : HandlerInput) : DmPolicy :=
  inp.dmPolicy.getD .dmPairing

/-- Effective group policy (part_001 lines 498-499):
`account.config.groupPolicy ?? defaults ?? "allowlist"`. -/
def effGroupPolicy (inp : HandlerInput) : GroupPolicy :=
  inp.groupPolicy.getD (inp.defaultGroupPolicy.getD .gpAllowlist)

/-- Source `configAllowFrom` (part_001 line 501). -/
def configAllowFromOf (inp : HandlerInput) : List JStr :=
  normalizeFeishuAllowlist inp.allowFrom

/-- Source `configGroupAllowFrom` (part_001 line 502). -/
def configGroupAllowFromOf (inp : HandlerInput) : List JStr :=
  normalizeFeishuAllowlist inp.groupAllowFrom

/-- Source `storeAllowList` (part_001 line 506). -/
def storeAllowListOf (inp : HandlerInput) : List JStr :=
  normalizeFeishuAllowlist (some inp.storeAllowFrom)

/-- Source `baseGroupAllowFrom` (part_001 lines 523-524): the group list, or the DM
list when the group list is empty after normalization. -/
def baseGroupAllowFromOf (inp : HandlerInput) : List JStr :=
  if !(configGroupAllowFromOf inp).isEmpty then configGroupAllowFromOf inp
  else configAllowFromOf inp

/-- Source `effectiveAllowFrom` (part_001 line 526). -/
def effectiveAllowFromOf (inp : HandlerInput) : List JStr :=
  (configAllowFromOf inp ++ storeAllowListOf inp).filter (fun e => e ≠ [])

/-- Source `effectiveGroupAllowFrom` (part_001 line 527). -/
def effectiveGroupAllowFromOf (inp : HandlerInput) : List JStr :=
  (baseGroupAllowFromOf inp ++ storeAllowListOf inp).filter (fun e => e ≠ [])

/-- Modelled from the spec: the pairing collaborator's
`upsertPairingRequest(channel, senderId, meta) -> {code, created}` (§6),
idempotent per sender (§3): the request is created only when the sender has
none yet, otherwise the existing one is fetched. -/
def upsertPairingRequest (store : List JStr) (senderId : JStr) : Bool × List JStr :=
  if senderId ∈ store then (false, store) else (true, senderId :: store)

/-- Source `handleFeishuMessage` (part_001 lines 446-844), up to and including the
admit/drop decision and the pairing side effect.  Replies and agent-runtime
delivery past admission are summarized by the `delivered` outcome. -/
def handleFeishuMessage (inp : HandlerInput) : HandlerResult :=
  match inp.message with
  | none => silentDrop inp .droppedNoMessage
  | some m =>
    if isAppSender inp then silentDrop inp .droppedAppSender
    else
      match resolveSenderIdOf inp with
      | none => silentDrop inp .droppedNoSender
      | some senderId =>
        if isSelfSender inp then silentDrop inp .droppedSelf
        else
          match effChatId m with
          | none => silentDrop inp .droppedNoChatId
          | some chatId =>
            match effBody inp with
            | none => silentDrop inp .droppedNoContent
            | some _rawBody =>
              let ts := deriveInboundTimestamp m.create_time inp.headerCreateTime inp.now
              let isGroup := isGroupOf m
              let chatMatch := resolveFeishuChatMatch inp.chats chatId
              if isGroup && !chatMatch.allowed then
                recordedDrop inp ts .droppedChatNotAllowed
              else if (chatMatch.chatConfig.bind (fun c => c.enabled)) = some false then
                recordedDrop inp ts .droppedChatDisabled
              else
                let chatAllowFrom :=
                  normalizeFeishuAllowlist (chatMatch.chatConfig.bind (fun c => c.allowFrom))
                if isGroup && inp.commandShouldBlock then
                  recordedDrop inp ts .droppedCommandUnauthorized
                else if isGroup then
                  let groupAllow := resolveFeishuGroupAllow
                    { groupPolicy := effGroupPolicy inp,
                      outerAllowFrom := some (effectiveGroupAllowFromOf inp),
                      innerAllowFrom := some chatAllowFrom,
                      senderId := senderId,
                      senderUserId := userIdOf inp,
                      senderName := some senderId }
                  if !groupAllow.allowed then
                    recordedDrop inp ts .droppedGroupPolicy
                  else if inp.mentionShouldSkip then
                    recordedDrop inp ts .droppedNoMention
                  else
                    { recordedDrop inp ts .delivered with outcome := .delivered }
                else
                  match effDmPolicy inp with
                  | .dmDisabled => recordedDrop inp ts .droppedDmDisabled
                  | .dmOpen => { recordedDrop inp ts .delivered with outcome := .delivered }
                  | .dmPairing =>
                    let dmAllowed := (resolveFeishuAllowlistMatch
                      (some (effectiveAllowFromOf inp)) senderId (userIdOf inp)
                      (some senderId)).allowed
                    if dmAllowed then
                      { recordedDrop inp ts .delivered with outcome := .delivered }
                    else
                      let up := upsertPairingRequest inp.pairingStore senderId
                      { outcome := .droppedDmPairing, recordedInbound := true,
                        inboundTimestamp := some ts, pairingUpserted := true,
                        pairingReplySent := up.1, pairingStoreAfter := up.2 }

/-- Run the handler `n` times on the same event, threading the pairing-request
store, counting the pairing-code replies that were sent. -/
def runHandlerTimes : Nat → HandlerInput → Nat × HandlerInput
  | 0, inp => (0, inp)
  | n + 1, inp =>
    let r := handleFeishuMessage inp
    let rest := runHandlerTimes n { inp with pairingStore := r.pairingStoreAfter }
    ((if r.pairingReplySent then 1 else 0) + rest.1, rest.2)

-- A concrete unapproved direct message under the pairing policy.
def dmPairingExample : HandlerInput :=
  { message := some { chat_id := some ("oc_1".toList),
                      chat_type := some ("p2p".toList),
                      create_time := some ("1700000000".toList) },
    senderTypeField := some ("user".toList),
    senderOpenId := some ("ou_x".toList),
    parsedText := some ("hello".toList),
    allowFrom := some ["ou_allowed".toList],
    now := 42 }

example : (handleFeishuMessage dmPairingExample).outcome = .droppedDmPairing := by decide
example : (handleFeishuMessage dmPairingExample).pairingReplySent = true := by decide
example : (runHandlerTimes 3 dmPairingExample).1 = 1 := by decide

/-! ## Claim theorems -/

/-- Helper: a successful allowlist match forces a non-empty normalized list. -/
lemma allowlistMatch_allowed_nonempty {af : Option (List JStr)} {sid : JStr}
    {uid nm : Option JStr}
    (h : (resolveFeishuAllowlistMatch af sid uid nm).allowed = true) :
    normalizeFeishuAllowlist af ≠ [] := by
  intro hempty
  unfold resolveFeishuAllowlistMatch at h
  rw [hempty] at h
  simp at h

/-- C2: nested group allowlist admission under `groupPolicy = "allowlist"`:
a sender matching a configured inner (room-level) allow-list is admitted
regardless of the outer list, and with neither list configured the sender is
denied. -/
theorem nested_group_allowlist_admission (p : GroupAllowParams)
    (hpol : p.groupPolicy = .gpAllowlist) :
    (normalizeFeishuAllowlist p.innerAllowFrom ≠ [] →
      (resolveFeishuAllowlistMatch p.innerAllowFrom p.senderId p.senderUserId
        p.senderName).allowed = true →
      (resolveFeishuGroupAllow p).allowed = true)
    ∧ (normalizeFeishuAllowlist p.outerAllowFrom = [] →
       normalizeFeishuAllowlist p.innerAllowFrom = [] →
       (resolveFeishuGroupAllow p).allowed = false) := by
  constructor
  · intro hinner hmatch
    unfold resolveFeishuGroupAllow
    rw [hpol]
    dsimp only
    rw [if_neg (by simp [hinner])]
    unfold resolveNestedAllowlistDecision
    simp [List.isEmpty_iff, hinner, hmatch]
  · intro houter hinner
    unfold resolveFeishuGroupAllow
    rw [hpol]
    dsimp only
    rw [if_pos (by simp [houter, hinner])]

/-- C2 witness: concrete evaluation — sender in the inner list but not in the
outer list is admitted; neither list configured denies. -/
theorem nested_group_allowlist_admission_witness :
    (resolveFeishuGroupAllow
      { groupPolicy := .gpAllowlist,
        outerAllowFrom := some ["ou_outer".toList],
        innerAllowFrom := some ["ou_in".toList],
        senderId := "ou_in".toList,
        senderUserId := none, senderName := none }).allowed = true
    ∧ (resolveFeishuGroupAllow
      { groupPolicy := .gpAllowlist,
        outerAllowFrom := some [],
        innerAllowFrom := none,
        senderId := "ou_in".toList,
        senderUserId := none, senderName := none }).allowed = false := by
  refine ⟨(nested_group_allowlist_admission _ rfl).1 (by decide) (by decide),
          (nested_group_allowlist_admission _ rfl).2 (by decide) (by decide)⟩

/-- C3: `groupPolicy = "disabled"` makes `resolveFeishuGroupAllow` deny every
sender, `groupPolicy = "open"` makes it admit every sender, and a group-chat
event handled under an effective `disabled` group policy is never delivered
to the agent runtime, whatever the allow-lists, mention status or any other
input holds. -/
theorem group_policy_disabled_drops_open_admits :
    (∀ p : GroupAllowParams, p.groupPolicy = .gpDisabled →
      (resolveFeishuGroupAllow p).allowed = false)
    ∧ (∀ p : GroupAllowParams, p.groupPolicy = .gpOpen →
      (resolveFeishuGroupAllow p).allowed = true)
    ∧ (∀ (inp : HandlerInput) (m : FeishuMsg), inp.message = some m →
       isGroupOf m = true → effGroupPolicy inp = .gpDisabled →
       (handleFeishuMessage inp).outcome ≠ .delivered) := by
  refine ⟨?_, ?_, ?_⟩
  · intro p hp
    unfold resolveFeishuGroupAllow
    rw [hp]
  · intro p hp
    unfold resolveFeishuGroupAllow
    rw [hp]
  · intro inp m hmsg hgrp hpol
    unfold handleFeishuMessage
    rw [hmsg]
    dsimp only
    repeat' split
    all_goals
      simp_all [silentDrop, recordedDrop, hpol, resolveFeishuGroupAllow]

/-- C3 witness: a concrete group message under a disabled group policy, with
a wildcard allow-list and chat entry, is dropped. -/
theorem group_policy_disabled_drops_open_admits_witness :
    (resolveFeishuGroupAllow
      { groupPolicy := .gpDisabled, outerAllowFrom := some ["*".toList],
        innerAllowFrom := some ["*".toList], senderId := "ou_a".toList,
        senderUserId := none, senderName := none }).allowed = false
    ∧ (resolveFeishuGroupAllow
      { groupPolicy := .gpOpen, outerAllowFrom := none,
        innerAllowFrom := none, senderId := "ou_a".toList,
        senderUserId := none, senderName := none }).allowed = true
    ∧ (handleFeishuMessage
      { message := some { chat_id := some ("oc_g".toList),
                          chat_type := some ("group".toList) },
        senderTypeField := some ("user".toList),
        senderOpenId := some ("ou_a".toList),
        parsedText := some ("hi".toList),
        groupPolicy := some .gpDisabled,
        groupAllowFrom := some ["*".toList],
        chats := some [("*".toList, {})] }).outcome ≠ .delivered := by
  refine ⟨(group_policy_disabled_drops_open_admits).1 _ rfl,
          (group_policy_disabled_drops_open_admits).2.1 _ rfl,
          (group_policy_disabled_drops_open_admits).2.2 _ _ rfl (by decide) (by decide)⟩

/-- C4: at every reachable supervisor state at most one restart is in flight;
a restart requested while one is in flight only sets the queued flag; and a
completing restart that finds the queued flag set loops, leaving exactly one
restart in flight. -/
theorem restart_requests_coalesced (s : SupState) (h : SupReachable s) :
    s.inFlight ≤ 1
    ∧ (s.stopped = false → s.aborted = false → s.inFlight = 1 →
        requestRestart s = { s with queued := true })
    ∧ (s.stopped = false → s.aborted = false → s.inFlight = 1 → s.queued = true →
        ∀ startFailed, (finishRestart startFailed s).inFlight = 1) := by
  refine ⟨supReachable_inFlight_le_one h, ?_, ?_⟩
  · intro hs ha hf
    unfold requestRestart
    simp [hs, ha, hf]
  · intro hs ha hf hq startFailed
    unfold finishRestart requestRestart
    simp [hs, ha, hf, hq]

/-- C4 witness: the state after one restart request from startup is reachable
and the theorem's guarantees evaluate there. -/
theorem restart_requests_coalesced_witness :
    ({ stopped := false, aborted := false, queued := false, inFlight := 1 } : SupState).inFlight ≤ 1
    ∧ requestRestart { stopped := false, aborted := false, queued := false, inFlight := 1 }
        = { stopped := false, aborted := false, queued := true, inFlight := 1 } := by
  have hreach : SupReachable { stopped := false, aborted := false, queued := false, inFlight := 1 } :=
    Relation.ReflTransGen.single (SupStep.request supInit)
  have h := restart_requests_coalesced _ hreach
  exact ⟨h.1, h.2.1 rfl rfl rfl⟩

/-- C5: a live watchdog tick requests a restart iff
`now - lastInboundAt ≥ idleTimeoutSeconds * 1000`, and with
`idleTimeoutSeconds ≤ 0` the watchdog is never armed and never fires. -/
theorem idle_watchdog_fires_iff :
    (∀ (stopped aborted : Bool) (now lastInboundAt idle interval : Int),
      stopped = false → aborted = false → 0 < idle → 0 < interval →
      (watchdogFires idle interval stopped aborted now lastInboundAt = true
        ↔ idle * 1000 ≤ now - lastInboundAt))
    ∧ (∀ (idle interval now lastInboundAt : Int) (stopped aborted : Bool),
       idle ≤ 0 →
       ensureWatchdogArmed false idle interval = false
       ∧ watchdogFires idle interval stopped aborted now lastInboundAt = false) := by
  constructor
  · intro stopped aborted now lastInboundAt idle interval hs ha hidle hint
    unfold watchdogFires ensureWatchdogArmed watchdogTick
    simp [hs, ha]
    omega
  · intro idle interval now lastInboundAt stopped aborted hidle
    unfold watchdogFires ensureWatchdogArmed
    simp [hidle]

/-- C5 witness: with a 60-second idle timeout, an idle gap of 65 seconds
fires and a gap of 30 seconds does not; a zero timeout never arms. -/
theorem idle_watchdog_fires_iff_witness :
    (watchdogFires 60 20 false false 65000 0 = true ↔ (60 : Int) * 1000 ≤ 65000 - 0)
    ∧ ensureWatchdogArmed false 0 20 = false := by
  exact ⟨idle_watchdog_fires_iff.1 false false 65000 0 60 20 rfl rfl (by norm_num) (by norm_num),
         (idle_watchdog_fires_iff.2 0 20 0 0 false false (by norm_num)).1⟩

/-- C6 (amended): the reconnect delay is
`min(maxMs, round(initial * factor^(attempt-1) * (1 + u)))` for some
`u ∈ [0, jitterFraction]` (namely `jitterFraction` times the drawn random),
with the default policy `initial=2000ms, factor=1.8, maxMs=30000ms,
jitterFraction=0.25`; the cap applies after jitter and the result is rounded
to whole milliseconds. -/
theorem computeBackoff_jittered_capped (attempt : Nat) (r : ℚ)
    (hat : 1 ≤ attempt) (hr0 : 0 ≤ r) (hr1 : r < 1) :
    WS_RECONNECT_POLICY.initialMs = 2000 ∧ WS_RECONNECT_POLICY.factor = 9 / 5
    ∧ WS_RECONNECT_POLICY.maxMs = 30000 ∧ WS_RECONNECT_POLICY.jitter = 1 / 4
    ∧ ∃ u : ℚ, 0 ≤ u ∧ u ≤ WS_RECONNECT_POLICY.jitter ∧
        computeBackoff WS_RECONNECT_POLICY attempt r
          = min WS_RECONNECT_POLICY.maxMs
              ((round (WS_RECONNECT_POLICY.initialMs
                * WS_RECONNECT_POLICY.factor ^ (attempt - 1) * (1 + u)) : ℤ) : ℚ) := by
  refine ⟨rfl, rfl, rfl, rfl, WS_RECONNECT_POLICY.jitter * r, ?_, ?_, ?_⟩
  · have : (0 : ℚ) ≤ WS_RECONNECT_POLICY.jitter := by norm_num [WS_RECONNECT_POLICY]
    exact mul_nonneg this hr0
  · have hj : WS_RECONNECT_POLICY.jitter = 1 / 4 := rfl
    rw [hj]
    linarith
  · unfold computeBackoff
    have harg :
        WS_RECONNECT_POLICY.initialMs * WS_RECONNECT_POLICY.factor ^ (attempt - 1)
          + WS_RECONNECT_POLICY.initialMs * WS_RECONNECT_POLICY.factor ^ (attempt - 1)
            * WS_RECONNECT_POLICY.jitter * r
        = WS_RECONNECT_POLICY.initialMs * WS_RECONNECT_POLICY.factor ^ (attempt - 1)
            * (1 + WS_RECONNECT_POLICY.jitter * r) := by ring
    rw [harg]

/-- C6 witness: first attempt with random draw 0 gives exactly the base
delay of 2000ms in the amended form. -/
theorem computeBackoff_jittered_capped_witness :
    (1 ≤ 1 ∧ (0 : ℚ) ≤ 0 ∧ (0 : ℚ) < 1)
    ∧ ∃ u : ℚ, 0 ≤ u ∧ u ≤ WS_RECONNECT_POLICY.jitter ∧
        computeBackoff WS_RECONNECT_POLICY 1 0
          = min WS_RECONNECT_POLICY.maxMs
              ((round (WS_RECONNECT_POLICY.initialMs
                * WS_RECONNECT_POLICY.factor ^ (1 - 1) * (1 + u)) : ℤ) : ℚ) :=
  ⟨⟨le_refl 1, le_refl 0, by norm_num⟩,
   (computeBackoff_jittered_capped 1 0 (le_refl 1) (le_refl 0) (by norm_num)).2.2.2.2⟩

/-- C6 counterexample: at attempt 5 with random draw 0 the computed delay is
20995 ms, which is not `min(maxMs, initial * factor^(attempt-1)) * (1 + u)`
for any `u ∈ [0, jitterFraction]`: the un-jittered base is 20995.2 ms and the
code rounds, so the spec's exact formula (no rounding, cap before jitter) is
not what the code computes. -/
theorem computeBackoff_claim_counterexample :
    ¬ ∃ u : ℚ, 0 ≤ u ∧ u ≤ WS_RECONNECT_POLICY.jitter ∧
      computeBackoff WS_RECONNECT_POLICY 5 0
        = min WS_RECONNECT_POLICY.maxMs
            (WS_RECONNECT_POLICY.initialMs * WS_RECONNECT_POLICY.factor ^ (5 - 1)) * (1 + u) := by
  rintro ⟨u, hu0, _, heq⟩
  have hfloor : (⌊(104976 / 5 + 1 / 2 : ℚ)⌋ : ℤ) = 20995 := by
    rw [Int.floor_eq_iff]
    constructor <;> norm_num
  have hval : computeBackoff WS_RECONNECT_POLICY 5 0 = 20995 := by
    unfold computeBackoff WS_RECONNECT_POLICY
    rw [round_eq]
    rw [show ({ initialMs := 2000, maxMs := 30000, factor := 9 / 5, jitter := 1 / 4 :
          ReconnectPolicy }.initialMs
        * ({ initialMs := 2000, maxMs := 30000, factor := 9 / 5, jitter := 1 / 4 :
          ReconnectPolicy }.factor) ^ (5 - 1)
        + { initialMs := 2000, maxMs := 30000, factor := 9 / 5, jitter := 1 / 4 :
          ReconnectPolicy }.initialMs
        * ({ initialMs := 2000, maxMs := 30000, factor := 9 / 5, jitter := 1 / 4 :
          ReconnectPolicy }.factor) ^ (5 - 1)
        * { initialMs := 2000, maxMs := 30000, factor := 9 / 5, jitter := 1 / 4 :
          ReconnectPolicy }.jitter * 0 + 1 / 2)
        = (104976 / 5 + 1 / 2 : ℚ) from by norm_num]
    rw [hfloor]
    norm_num
  rw [hval] at heq
  have hmin : min WS_RECONNECT_POLICY.maxMs
      (WS_RECONNECT_POLICY.initialMs * WS_RECONNECT_POLICY.factor ^ (5 - 1))
      = (104976 / 5 : ℚ) := by
    unfold WS_RECONNECT_POLICY
    norm_num
  rw [hmin] at heq
  nlinarith [heq, hu0]

/-- C8: the inbound timestamp comes from the message's `create_time` when
that parses as a (finite) integer, otherwise from the event header's
`create_time`, otherwise from the local receipt time; parsed values below
`1e11` are seconds and are scaled by 1000, values at or above `1e11` are
milliseconds and are used unchanged. -/
theorem inbound_timestamp_derivation (m h : Option JStr) (now : Int) :
    (∀ (s : JStr) (n : Int), m = some s → s ≠ [] → jsParseInt s = some n →
      deriveInboundTimestamp m h now = (if n < 100000000000 then n * 1000 else n))
    ∧ (parseTimestamp m = none →
       ∀ (s : JStr) (n : Int), h = some s → s ≠ [] → jsParseInt s = some n →
       deriveInboundTimestamp m h now = (if n < 100000000000 then n * 1000 else n))
    ∧ (parseTimestamp m = none → parseTimestamp h = none →
       deriveInboundTimestamp m h now = now) := by
  refine ⟨?_, ?_, ?_⟩
  · intro s n hm hs hp
    subst hm
    unfold deriveInboundTimestamp
    rw [show parseTimestamp (some s) = some (if n < 100000000000 then n * 1000 else n) by
      simp [parseTimestamp, hs, hp]]
  · intro hmn s n hh hs hp
    subst hh
    unfold deriveInboundTimestamp
    rw [hmn]
    rw [show parseTimestamp (some s) = some (if n < 100000000000 then n * 1000 else n) by
      simp [parseTimestamp, hs, hp]]
  · intro hmn hhn
    unfold deriveInboundTimestamp
    rw [hmn, hhn]

/-- C8 witness: a second-resolution message time is scaled; an unparseable
message time falls back to a millisecond-resolution header time; with both
unparseable the local time is used. -/
theorem inbound_timestamp_derivation_witness :
    deriveInboundTimestamp (some ("1700000000".toList)) none 5 = 1700000000000
    ∧ deriveInboundTimestamp (some ("abc".toList)) (some ("1700000000123".toList)) 5
        = 1700000000123
    ∧ deriveInboundTimestamp none none 7 = 7 := by
  refine ⟨?_, ?_, ?_⟩
  · have := (inbound_timestamp_derivation (some ("1700000000".toList)) none 5).1
      ("1700000000".toList) 1700000000 rfl (by decide) (by decide)
    simpa using this
  · have := (inbound_timestamp_derivation (some ("abc".toList))
      (some ("1700000000123".toList)) 5).2.1 (by decide)
      ("1700000000123".toList) 1700000000123 rfl (by decide) (by decide)
    simpa using this
  · exact (inbound_timestamp_derivation none none 7).2.2 (by decide) (by decide)

/-! ## C7: normalization idempotence machinery -/

lemma char_toNat_ofNat {n : Nat} (h : n.isValidChar) : (Char.ofNat n).toNat = n := by
  rw [Char.ofNat, dif_pos h]
  rfl

lemma jsLowerChar_idem (c : Char) : jsLowerChar (jsLowerChar c) = jsLowerChar c := by
  unfold jsLowerChar
  by_cases h : 65 ≤ c.toNat ∧ c.toNat ≤ 90
  · rw [if_pos h]
    have hval : (c.toNat + 32).isValidChar := Or.inl (by omega)
    rw [if_neg]
    rw [char_toNat_ofNat hval]
    omega
  · rw [if_neg h, if_neg h]

lemma jsWs_jsLowerChar (c : Char) : jsWs (jsLowerChar c) = jsWs c := by
  unfold jsWs jsLowerChar
  by_cases h : 65 ≤ c.toNat ∧ c.toNat ≤ 90
  · rw [if_pos h]
    have hval : (c.toNat + 32).isValidChar := Or.inl (by omega)
    rw [decide_eq_decide, char_toNat_ofNat hval]
    omega
  · rw [if_neg h]

lemma jsToLower_idem (s : JStr) : jsToLower (jsToLower s) = jsToLower s := by
  unfold jsToLower
  induction s with
  | nil => rfl
  | cons c cs ih =>
    simp only [List.map_cons, jsLowerChar_idem, List.map_map] at *
    simp [ih]

lemma jsToLower_drop (s : JStr) (k : Nat) :
    jsToLower (s.drop k) = (jsToLower s).drop k := by
  unfold jsToLower
  exact List.map_drop ..

/-- No trailing whitespace. -/
def noTrailWs (s : JStr) : Prop :=
  ∀ c, s.getLast? = some c → jsWs c = false

lemma head_dropWhile_false {p : Char → Bool} {l : JStr} {c : Char}
    (h : (l.dropWhile p).head? = some c) : p c = false := by
  induction l with
  | nil => simp at h
  | cons a t ih =>
    rw [List.dropWhile_cons] at h
    by_cases hp : p a = true
    · rw [if_pos hp] at h
      exact ih h
    · rw [if_neg hp] at h
      simp at h
      rw [← h]
      simpa using hp

lemma dropWhile_eq_self_of_head {p : Char → Bool} {l : JStr}
    (h : ∀ c, l.head? = some c → p c = false) : l.dropWhile p = l := by
  cases l with
  | nil => rfl
  | cons a t =>
    rw [List.dropWhile_cons, if_neg]
    rw [h a rfl]
    simp

lemma getLast?_map_lower (l : JStr) :
    (jsToLower l).getLast? = l.getLast?.map jsLowerChar := by
  unfold jsToLower
  induction l with
  | nil => rfl
  | cons a t ih =>
    cases t with
    | nil => rfl
    | cons b u =>
      simp only [List.map_cons, List.getLast?_cons_cons]
      simp only [List.map_cons] at ih
      exact ih

lemma noTrailWs_trim (x : JStr) : noTrailWs (jsTrim x) := by
  intro c hc
  unfold jsTrim at hc
  rw [List.getLast?_reverse] at hc
  exact head_dropWhile_false hc

lemma noTrailWs_toLower {s : JStr} (h : noTrailWs s) : noTrailWs (jsToLower s) := by
  intro c hc
  rw [getLast?_map_lower] at hc
  cases hget : s.getLast? with
  | none => rw [hget] at hc; simp at hc
  | some d =>
    rw [hget] at hc
    simp at hc
    rw [← hc, jsWs_jsLowerChar]
    exact h d hget

lemma noTrailWs_drop (k : Nat) {s : JStr} (h : noTrailWs s) : noTrailWs (s.drop k) := by
  induction k generalizing s with
  | zero => simpa using h
  | succ k ih =>
    cases s with
    | nil => intro c hc; simp at hc
    | cons a t =>
      rw [List.drop_succ_cons]
      apply ih
      intro c hc
      apply h
      cases t with
      | nil => simp at hc
      | cons b u => rw [List.getLast?_cons_cons]; exact hc

lemma jsTrim_eq_self {y : JStr}
    (hhead : ∀ c, y.head? = some c → jsWs c = false) (hlast : noTrailWs y) :
    jsTrim y = y := by
  unfold jsTrim
  rw [dropWhile_eq_self_of_head hhead]
  rw [dropWhile_eq_self_of_head (fun c hc => hlast c (by rw [← List.head?_reverse]; exact hc))]
  exact List.reverse_reverse y

lemma normalize_eq_drop (x : JStr) :
    ∃ k, normalizeFeishuAllowEntry x = (jsToLower (jsTrim x)).drop k := by
  unfold normalizeFeishuAllowEntry stripKindTag stripPlatformTag
  split_ifs <;>
    first
      | exact ⟨0, (List.drop_zero _).symm⟩
      | exact ⟨7, rfl⟩
      | exact ⟨5, rfl⟩
      | exact ⟨_, List.drop_drop ..⟩

/-- C7 counterexample: allow-list entry normalization is not idempotent for
every string: `"chat:chat:a"` normalizes to `"chat:a"`, which normalizes
again to `"a"` (the kind-tag regex strips only one leading tag per pass). -/
theorem normalize_not_idempotent :
    normalizeFeishuAllowEntry (normalizeFeishuAllowEntry ("chat:chat:a".toList))
      ≠ normalizeFeishuAllowEntry ("chat:chat:a".toList) := by decide

/-- C7 (amended): normalization is idempotent at every string whose
normalized form neither starts with whitespace nor with one of the stripped
tags `feishu:`, `lark:`, `user:`, `open:`, `chat:` (case-insensitively); the
exceptional strings are exactly those whose single-pass result still carries
a second strippable tag or tag-protected whitespace. -/
theorem normalize_idempotent_on_clean_entries (x : JStr)
    (hws : ∀ c, (normalizeFeishuAllowEntry x).head? = some c → jsWs c = false)
    (hp1 : startsWithCI ("feishu:".toList) (normalizeFeishuAllowEntry x) = false)
    (hp2 : startsWithCI ("lark:".toList) (normalizeFeishuAllowEntry x) = false)
    (hp3 : startsWithCI ("user:".toList) (normalizeFeishuAllowEntry x) = false)
    (hp4 : startsWithCI ("open:".toList) (normalizeFeishuAllowEntry x) = false)
    (hp5 : startsWithCI ("chat:".toList) (normalizeFeishuAllowEntry x) = false) :
    normalizeFeishuAllowEntry (normalizeFeishuAllowEntry x)
      = normalizeFeishuAllowEntry x := by
  obtain ⟨k, hk⟩ := normalize_eq_drop x
  have hlow : jsToLower (normalizeFeishuAllowEntry x) = normalizeFeishuAllowEntry x := by
    rw [hk, ← jsToLower_drop, jsToLower_idem, jsToLower_drop]
  have hlast : noTrailWs (normalizeFeishuAllowEntry x) := by
    rw [hk]
    exact noTrailWs_drop k (noTrailWs_toLower (noTrailWs_trim x))
  have htrim : jsTrim (normalizeFeishuAllowEntry x) = normalizeFeishuAllowEntry x :=
    jsTrim_eq_self hws hlast
  calc normalizeFeishuAllowEntry (normalizeFeishuAllowEntry x)
      = stripKindTag (stripPlatformTag (jsToLower (jsTrim (normalizeFeishuAllowEntry x)))) :=
        rfl
    _ = stripKindTag (stripPlatformTag (normalizeFeishuAllowEntry x)) := by rw [htrim, hlow]
    _ = stripKindTag (normalizeFeishuAllowEntry x) := by
        unfold stripPlatformTag
        rw [hp1, hp2]
        simp
    _ = normalizeFeishuAllowEntry x := by
        unfold stripKindTag
        rw [hp3, hp4, hp5]
        simp

/-- C7 witness: `"Feishu:User:OU_ABC"` normalizes to `"ou_abc"`, whose
normalized form is clean, and re-normalizing is the identity there. -/
theorem normalize_idempotent_on_clean_entries_witness :
    normalizeFeishuAllowEntry (normalizeFeishuAllowEntry ("Feishu:User:OU_ABC".toList))
      = normalizeFeishuAllowEntry ("Feishu:User:OU_ABC".toList) :=
  normalize_idempotent_on_clean_entries ("Feishu:User:OU_ABC".toList)
    (by decide) (by decide) (by decide) (by decide) (by decide) (by decide)

/-! ## Handler-path helper lemmas -/

lemma handle_dm_pairing_eq (inp : HandlerInput) (m : FeishuMsg) (sid : JStr)
    (hmsg : inp.message = some m)
    (happ : isAppSender inp = false)
    (hsid : resolveSenderIdOf inp = some sid)
    (hself : isSelfSender inp = false)
    (hchat : (effChatId m).isSome = true)
    (hbody : (effBody inp).isSome = true)
    (hdm : isGroupOf m = false)
    (hpol : effDmPolicy inp = .dmPairing)
    (hdis : ∀ c, (effChatId m) = some c →
      ((resolveFeishuChatMatch inp.chats c).chatConfig.bind (fun cc => cc.enabled))
        ≠ some false)
    (hallow : (resolveFeishuAllowlistMatch (some (effectiveAllowFromOf inp)) sid
        (userIdOf inp) (some sid)).allowed = false) :
    handleFeishuMessage inp =
      { outcome := .droppedDmPairing, recordedInbound := true,
        inboundTimestamp :=
          some (deriveInboundTimestamp m.create_time inp.headerCreateTime inp.now),
        pairingUpserted := true,
        pairingReplySent := (upsertPairingRequest inp.pairingStore sid).1,
        pairingStoreAfter := (upsertPairingRequest inp.pairingStore sid).2 } := by
  obtain ⟨c, hc⟩ := Option.isSome_iff_exists.mp hchat
  obtain ⟨b, hb⟩ := Option.isSome_iff_exists.mp hbody
  have hdis' := hdis c hc
  unfold handleFeishuMessage
  rw [hmsg]
  simp only [happ, Bool.false_eq_true, if_false, hsid, hself, hc, hb, hdm, hpol,
    Bool.false_and, Bool.and_eq_true, false_and, if_neg hdis', hallow]

/-- C1: a direct message under `dmPolicy = "pairing"` from a sender outside
the effective DM allow-list always creates-or-fetches a pairing request,
sends the pairing-code reply exactly when the request was newly created, and
is dropped without ever reaching the agent runtime; three such messages from
the same unapproved sender produce exactly one pairing-code reply. -/
theorem dm_pairing_creates_once_never_delivers
    (inp : HandlerInput) (m : FeishuMsg) (sid : JStr)
    (hmsg : inp.message = some m)
    (happ : isAppSender inp = false)
    (hsid : resolveSenderIdOf inp = some sid)
    (hself : isSelfSender inp = false)
    (hchat : (effChatId m).isSome = true)
    (hbody : (effBody inp).isSome = true)
    (hdm : isGroupOf m = false)
    (hpol : effDmPolicy inp = .dmPairing)
    (hdis : ∀ c, (effChatId m) = some c →
      ((resolveFeishuChatMatch inp.chats c).chatConfig.bind (fun cc => cc.enabled))
        ≠ some false)
    (hallow : (resolveFeishuAllowlistMatch (some (effectiveAllowFromOf inp)) sid
        (userIdOf inp) (some sid)).allowed = false) :
    (handleFeishuMessage inp).outcome = .droppedDmPairing
    ∧ (handleFeishuMessage inp).outcome ≠ .delivered
    ∧ (handleFeishuMessage inp).pairingUpserted = true
    ∧ (sid ∈ inp.pairingStore → (handleFeishuMessage inp).pairingReplySent = false
        ∧ (handleFeishuMessage inp).pairingStoreAfter = inp.pairingStore)
    ∧ (sid ∉ inp.pairingStore → (handleFeishuMessage inp).pairingReplySent = true
        ∧ (handleFeishuMessage inp).pairingStoreAfter = sid :: inp.pairingStore)
    ∧ (sid ∉ inp.pairingStore → (runHandlerTimes 3 inp).1 = 1) := by
  have h1 := handle_dm_pairing_eq inp m sid hmsg happ hsid hself hchat hbody hdm hpol hdis hallow
  have h2 := handle_dm_pairing_eq { inp with pairingStore := sid :: inp.pairingStore } m sid
    hmsg happ hsid hself hchat hbody hdm hpol hdis hallow
  refine ⟨by rw [h1], by rw [h1]; simp, by rw [h1], ?_, ?_, ?_⟩
  · intro hin
    rw [h1]
    simp [upsertPairingRequest, hin]
  · intro hout
    rw [h1]
    simp [upsertPairingRequest, hout]
  · intro hout
    simp only [runHandlerTimes]
    rw [h1]
    simp only [upsertPairingRequest, if_neg hout]
    rw [h2]
    have hin2 : sid ∈ sid :: inp.pairingStore := List.mem_cons_self ..
    simp [upsertPairingRequest, hin2, h2]

/-- C1 witness: a concrete unknown DM sender under the pairing policy gets
one pairing reply across three identical messages and is never delivered. -/
theorem dm_pairing_creates_once_never_delivers_witness :
    (handleFeishuMessage dmPairingExample).outcome = .droppedDmPairing
    ∧ (handleFeishuMessage dmPairingExample).outcome ≠ .delivered
    ∧ (handleFeishuMessage dmPairingExample).pairingUpserted = true
    ∧ (runHandlerTimes 3 dmPairingExample).1 = 1 := by
  have h := dm_pairing_creates_once_never_delivers dmPairingExample
    { chat_id := some ("oc_1".toList), chat_type := some ("p2p".toList),
      create_time := some ("1700000000".toList) }
    ("ou_x".toList) rfl (by decide) (by decide) (by decide) (by decide) (by decide)
    (by decide) (by decide) (by decide) (by decide)
  exact ⟨h.1, h.2.1, h.2.2.1, h.2.2.2.2.2 (by decide)⟩

/-- C9: an event whose `sender_type` is `app`, or whose sender open id equals
the configured `botOpenId`, is discarded before any liveness bookkeeping,
policy evaluation, pairing side effect, or reply: the handler returns with no
observable effect. -/
theorem app_and_self_senders_discarded_silently :
    (∀ (inp : HandlerInput) (m : FeishuMsg), inp.message = some m →
      isAppSender inp = true →
      handleFeishuMessage inp =
        { outcome := .droppedAppSender, recordedInbound := false,
          inboundTimestamp := none, pairingUpserted := false,
          pairingReplySent := false, pairingStoreAfter := inp.pairingStore })
    ∧ (∀ (inp : HandlerInput) (m : FeishuMsg), inp.message = some m →
       isAppSender inp = false → isSelfSender inp = true →
       handleFeishuMessage inp =
        { outcome := .droppedSelf, recordedInbound := false,
          inboundTimestamp := none, pairingUpserted := false,
          pairingReplySent := false, pairingStoreAfter := inp.pairingStore }) := by
  constructor
  · intro inp m hmsg happ
    unfold handleFeishuMessage
    rw [hmsg]
    simp [happ, silentDrop]
  · intro inp m hmsg happ hself
    obtain ⟨b, hbot, hopen⟩ : ∃ b, inp.botOpenId = some b ∧ openIdOf inp = some b := by
      unfold isSelfSender at hself
      cases hbot : inp.botOpenId with
      | none => rw [hbot] at hself; simp at hself
      | some b =>
        rw [hbot] at hself
        simp at hself
        exact ⟨b, rfl, hself.2⟩
    have hsid : resolveSenderIdOf inp = some b := by
      unfold resolveSenderIdOf
      rw [hopen]
    unfold handleFeishuMessage
    rw [hmsg]
    simp [happ, hsid, hself, silentDrop]

/-- C9 witness: a concrete app-sender event and a concrete bot-self event are
both discarded with no side effect. -/
theorem app_and_self_senders_discarded_silently_witness :
    handleFeishuMessage
      { message := some { chat_id := some ("oc_1".toList) },
        senderTypeField := some ("App ".toList),
        senderOpenId := some ("ou_z".toList),
        parsedText := some ("hi".toList) } =
      { outcome := .droppedAppSender, recordedInbound := false,
        inboundTimestamp := none, pairingUpserted := false,
        pairingReplySent := false, pairingStoreAfter := [] }
    ∧ handleFeishuMessage
      { message := some { chat_id := some ("oc_1".toList) },
        senderTypeField := some ("user".toList),
        senderOpenId := some ("ou_bot".toList),
        botOpenId := some ("ou_bot".toList),
        parsedText := some ("hi".toList) } =
      { outcome := .droppedSelf, recordedInbound := false,
        inboundTimestamp := none, pairingUpserted := false,
        pairingReplySent := false, pairingStoreAfter := [] } := by
  exact ⟨app_and_self_senders_discarded_silently.1 _ { chat_id := some ("oc_1".toList) }
           rfl (by decide),
         app_and_self_senders_discarded_silently.2 _ { chat_id := some ("oc_1".toList) }
           rfl (by decide) (by decide)⟩

/-- C10: with `groupAllowFrom` empty after normalization, the DM `allowFrom`
list takes its place as the outer group allow-list (before the persisted
pairing-store entries are appended): the effective group list equals the
effective DM list, so a sender admitted by the DM allow-list is admitted to
allowlist-gated group chats (that configure no room-level inner list). -/
theorem dm_allowlist_reused_for_groups (inp : HandlerInput) (sid : JStr)
    (uid : Option JStr) (inner : List JStr)
    (hempty : configGroupAllowFromOf inp = [])
    (hinner : normalizeFeishuAllowlist (some inner) = [])
    (hmatch : (resolveFeishuAllowlistMatch (some (effectiveAllowFromOf inp)) sid uid
        (some sid)).allowed = true) :
    effectiveGroupAllowFromOf inp = effectiveAllowFromOf inp
    ∧ (resolveFeishuGroupAllow
        { groupPolicy := .gpAllowlist,
          outerAllowFrom := some (effectiveGroupAllowFromOf inp),
          innerAllowFrom := some inner,
          senderId := sid, senderUserId := uid, senderName := some sid }).allowed
        = true := by
  have h1 : effectiveGroupAllowFromOf inp = effectiveAllowFromOf inp := by
    unfold effectiveGroupAllowFromOf baseGroupAllowFromOf effectiveAllowFromOf
    rw [hempty]
    simp
  refine ⟨h1, ?_⟩
  have hne := allowlistMatch_allowed_nonempty hmatch
  unfold resolveFeishuGroupAllow
  dsimp only
  rw [h1]
  rw [if_neg (by simp [hne])]
  unfold resolveNestedAllowlistDecision
  rw [hinner]
  simp [List.isEmpty_iff, hne, hmatch]

/-- C10 witness: a sender only on the DM allow-list is admitted to an
allowlist-gated group chat when no group allow-list is configured. -/
theorem dm_allowlist_reused_for_groups_witness :
    effectiveGroupAllowFromOf
        { allowFrom := some ["ou_a".toList], groupAllowFrom := none }
      = effectiveAllowFromOf { allowFrom := some ["ou_a".toList], groupAllowFrom := none }
    ∧ (resolveFeishuGroupAllow
        { groupPolicy := .gpAllowlist,
          outerAllowFrom := some (effectiveGroupAllowFromOf
            { allowFrom := some ["ou_a".toList], groupAllowFrom := none }),
          innerAllowFrom := some [],
          senderId := "ou_a".toList, senderUserId := none,
          senderName := some ("ou_a".toList) }).allowed = true :=
  dm_allowlist_reused_for_groups
    { allowFrom := some ["ou_a".toList], groupAllowFrom := none }
    ("ou_a".toList) none [] (by decide) (by decide) (by decide)
